import Mathlib

/-!
Shallow embedding of `src/reseau.py` (class `ServerManager`) from the
soft_esp repository.

Modelling conventions:
* byte strings are `List Nat`;
* the SHA-256 hex digest is an abstract parameter `hash : List Nat → String`
  (its concrete value never matters for the properties below);
* `sqlite3` tables are in-memory lists; obtaining a database connection is
  abstracted to a boolean (`connOk`): `get_db_connection` either yields a
  usable connection or `None`;
* socket traffic during the image-transfer phase is a list of events
  `(t, chunk)`: at wall-clock time `t` (seconds since entry into
  `receive_data_with_timeout`) `recv` returns `chunk`; the empty chunk is a
  peer close.  `recv` itself blocks at most `CONNECTION_TIMEOUT` seconds
  (the socket timeout set in `handle_client`) before raising
  `socket.timeout`, which the loop swallows and retries; this retry
  arithmetic is folded into the event-taking condition below;
* each lock-protected block of the Python code is one atomic action; the
  per-claim concurrency models interleave those actions.
-/

namespace SoftEsp

/-- `MAX_IMAGE_SIZE = 10 * 1024 * 1024` from reseau.py. -/
def MAX_IMAGE_SIZE : Nat := 10 * 1024 * 1024

/-- `BUFFER_SIZE = 8192` from reseau.py. -/
def BUFFER_SIZE : Nat := 8192

/-- `CONNECTION_TIMEOUT = 30.0` from reseau.py (whole time units). -/
def CONNECTION_TIMEOUT : Nat := 30

/-- `MAX_CONNECTIONS = 50` from reseau.py. -/
def MAX_CONNECTIONS : Int := 50

/-- Byte strings are lists of byte values. -/
abbrev Bytes := List Nat

/-- The literal end-of-data marker `b"EOF"` (ASCII 69, 79, 70). -/
def eofMarker : Bytes := [69, 79, 70]

/-- `isPre pat l` holds when `pat` is a prefix of `l` (byte-wise). -/
def isPre : Bytes → Bytes → Bool
  | [], _ => true
  | _ :: _, [] => false
  | a :: as, b :: bs => a == b && isPre as bs

/-- Index of the first occurrence of `pat` as a contiguous substring of
`l`, mirroring Python `bytes.find`: `none` when absent. -/
def findSub (pat : Bytes) : Bytes → Option Nat
  | [] => if isPre pat [] then some 0 else none
  | a :: t => if isPre pat (a :: t) then some 0 else (findSub pat t).map (· + 1)

/-- Python `b"EOF" in data`. -/
def hasEof (l : Bytes) : Bool := (findSub eofMarker l).isSome

/-- `buffer = buffer[:buffer.find(b"EOF")]` — everything strictly before the
first occurrence of the marker (the whole buffer when there is none). -/
def truncAtEof (buf : Bytes) : Bytes :=
  match findSub eofMarker buf with
  | some p => buf.take p
  | none => buf

/-- Outcome of `receive_data_with_timeout`: a returned payload, the raised
`socket.timeout`, or the raised `ValueError` for an oversized buffer. -/
inductive RecvOutcome where
  | ok (payload : Bytes)
  | timeoutErr
  | sizeErr (n : Nat)
deriving DecidableEq

/-- `ServerManager.receive_data_with_timeout` (reseau.py lines 193-220)
over an event stream.  `now` is the wall-clock time observed at the top of
the `while` loop (the arrival time of the previously processed chunk, `0`
on entry).  An event `(t, data)` is consumed when `recv` can return it:
directly when `t ≤ now + CONNECTION_TIMEOUT`, or — because a first
`socket.timeout` at `now + 30` is swallowed and the deadline test
`time.time() - start_time > CONNECTION_TIMEOUT` still fails when `now = 0`
— after one silent retry when `now = 0 ∧ t ≤ 60`.  An exhausted stream
(client neither sends nor closes) ends in `socket.timeout`. -/
def receive_data_with_timeout : List (Nat × Bytes) → Nat → Bytes → RecvOutcome
  | [], _, _ => .timeoutErr
  | (t, data) :: rest, now, buffer =>
    if now > CONNECTION_TIMEOUT then .timeoutErr
    else if t ≤ now + CONNECTION_TIMEOUT ∨ (now = 0 ∧ t ≤ 2 * CONNECTION_TIMEOUT) then
      if data = [] then .ok buffer
      else
        let buf2 := buffer ++ data
        if hasEof data then .ok (truncAtEof buf2)
        else if buf2.length > MAX_IMAGE_SIZE then .sizeErr buf2.length
        else receive_data_with_timeout rest t buf2
    else .timeoutErr

/-- One row of the `captures` table (columns of the `CREATE TABLE` in
`init_db`, reseau.py lines 107-117; the auto-increment id is the list
position). -/
structure Capture where
  uid : String
  salle : String
  nom : String
  image : Bytes
  image_hash : String
  image_size : Nat
  timestamp : String
deriving DecidableEq

/-- The rows produced by
`SELECT id FROM captures WHERE image_hash=? AND uid=? AND salle=?`. -/
def capturesMatching (caps : List Capture) (h uid salle : String) : List Capture :=
  caps.filter fun c => c.image_hash == h && c.uid == uid && c.salle == salle

/-- `ServerManager.save_capture` (reseau.py lines 156-191).  `connOk` is
whether `get_db_connection` yielded a connection; the result is the
returned boolean together with the table after the call.  The dedup
`SELECT` and the `INSERT` are two separate statements; only the `INSERT`
runs inside `with self.lock` (see the interleaved model further down). -/
def save_capture (hash : Bytes → String) (connOk : Bool) (caps : List Capture)
    (uid salle nom : String) (image_data : Bytes) (timestamp : String) :
    Bool × List Capture :=
  if !connOk then (false, caps)
  else
    let image_hash := hash image_data
    let image_size := image_data.length
    if !(capturesMatching caps image_hash uid salle).isEmpty then (true, caps)
    else (true, caps ++ [⟨uid, salle, nom, image_data, image_hash, image_size, timestamp⟩])

/-- One row of the `autorisations` table: `(uid, salle, nom)`. -/
abbrev AutRow := String × String × String

/-- `SELECT nom FROM autorisations WHERE uid=? AND salle=?` (the table is
`UNIQUE(uid, salle)`, so the first match is the row). -/
def lookupAut (table : List AutRow) (uid salle : String) : Option String :=
  (table.find? fun e => e.1 == uid && e.2.1 == salle).map fun e => e.2.2

/-- The memo table of `functools.lru_cache` on `is_authorized`: most
recently used first; the stored value is the function's return
(`nom` or `None`). -/
abbrev AuthCache := List ((String × String) × Option String)

/-- Cached value for a key, if present. -/
def cacheLookup : AuthCache → (String × String) → Option (Option String)
  | [], _ => none
  | e :: rest, k => if e.1 == k then some e.2 else cacheLookup rest k

/-- On a hit `lru_cache` moves the key to most-recently-used position. -/
def cacheTouch (c : AuthCache) (k : String × String) (v : Option String) : AuthCache :=
  (k, v) :: c.filter fun e => !(e.1 == k)

/-- On a miss `lru_cache` records the computed value and evicts the least
recently used entries beyond `maxsize=1000`. -/
def cacheInsert (c : AuthCache) (k : String × String) (v : Option String) : AuthCache :=
  ((k, v) :: c).take 1000

/-- `ServerManager.is_authorized` (reseau.py lines 138-154) together with
its `@lru_cache(maxsize=1000)` wrapper.  Returns the result, the cache
after the call, and whether the authorization table was actually queried.
A failed `get_db_connection` (`connOk = false`) makes the body return
`None`, and `lru_cache` memoizes that `None` like any other value. -/
def is_authorized (connOk : Bool) (table : List AutRow) (cache : AuthCache)
    (uid salle : String) : Option String × AuthCache × Bool :=
  match cacheLookup cache (uid, salle) with
  | some v => (v, cacheTouch cache (uid, salle) v, false)
  | none =>
    if !connOk then (none, cacheInsert cache (uid, salle) none, false)
    else
      let r := lookupAut table uid salle
      (r, cacheInsert cache (uid, salle) r, true)

/-- The mutable fields of the `ServerManager` singleton the claims are
about: the room-occupancy dict, the active-connection counter, and the
database tables plus the memo cache. -/
structure ServerState where
  connected_rooms : List (String × Int)
  active_connections : Int
  captures : List Capture
  autorisations : List AutRow
  authCache : AuthCache
deriving DecidableEq

/-- `self.connected_rooms.get(salle)` on the assoc-list model (Python dict
keys are unique; reachable states keep the list key-unique). -/
def roomsLookup : List (String × Int) → String → Option Int
  | [], _ => none
  | e :: rest, salle => if e.1 == salle then some e.2 else roomsLookup rest salle

/-- Overwrite the first binding of `salle` (Python `d[salle] = v`). -/
def roomsSet : List (String × Int) → String → Int → List (String × Int)
  | [], _, _ => []
  | e :: rest, salle, v =>
    if e.1 == salle then (salle, v) :: rest else e :: roomsSet rest salle v

/-- `del self.connected_rooms[salle]`. -/
def roomsErase (rooms : List (String × Int)) (salle : String) : List (String × Int) :=
  rooms.filter fun e => !(e.1 == salle)

/-- The connection-tracking lock block of `handle_client` (reseau.py lines
255-259): create-or-increment the room counter and bump the
active-connection counter. -/
def connectionGate (st : ServerState) (salle : String) : ServerState :=
  let rooms :=
    match roomsLookup st.connected_rooms salle with
    | none => st.connected_rooms ++ [(salle, 1)]
    | some c => roomsSet st.connected_rooms salle (c + 1)
  { st with connected_rooms := rooms,
            active_connections := st.active_connections + 1 }

/-- The `finally` lock block of `handle_client` (reseau.py lines 318-325),
run whenever `salle` is a non-empty string: decrement the room counter if
the room is still tracked (deleting it at zero or below) and clamp the
active-connection counter at zero. -/
def sessionTeardown (st : ServerState) (salle : String) : ServerState :=
  let rooms :=
    match roomsLookup st.connected_rooms salle with
    | none => st.connected_rooms
    | some c =>
      if c - 1 ≤ 0 then roomsErase st.connected_rooms salle
      else roomsSet st.connected_rooms salle (c - 1)
  { st with connected_rooms := rooms,
            active_connections := max 0 (st.active_connections - 1) }

/-- The counter reset in `ServerManager._cleanup_server` (reseau.py lines
419-421): `connected_rooms.clear()` and `active_connections = 0`. -/
def cleanupCounters (st : ServerState) : ServerState :=
  { st with connected_rooms := [], active_connections := 0 }

/-- JSON responses sent by `handle_client`, one constructor per `status`
value appearing in reseau.py. -/
inductive Response where
  | ok (message user : String)
  | denied (reason : String)
  | granted (timestamp : String) (size : Nat) (user : String)
  | error (reason : String)
deriving DecidableEq

/-- The decoded initial `recv(1024)` of a session: nothing arrived, a
non-JSON blob, or a parsed object reduced to its `room` and `uid` fields
(absent fields read as `""` via `client_data.get(..., "")`). -/
inductive HandshakeInput where
  | noData
  | badJson
  | fields (room uid : String)
deriving DecidableEq

/-- Per-session environment: whether `get_db_connection` succeeds for the
authorization lookup and for the capture save, and the
`datetime.now().isoformat()` string of the session. -/
structure Env where
  authConn : Bool
  saveConn : Bool
  timestamp : String

/-- Python `str.strip()` on the character list: drop leading and trailing
whitespace. -/
def stripChars (l : List Char) : List Char :=
  ((l.dropWhile Char.isWhitespace).reverse.dropWhile Char.isWhitespace).reverse

/-- Python `str.strip()`. -/
def pyStrip (s : String) : String := ⟨stripChars s.data⟩

/-- `ServerManager.handle_client` (reseau.py lines 230-329) for one
session, sequentially (its lock blocks uninterleaved).  Returns the list
of JSON responses sent to the client in order, and the server state after
the `finally` block.  Faithful branch structure:

* empty initial read / bad JSON raise `ValueError` with `salle` still
  `None`, so the `finally` teardown is skipped;
* an empty (stripped) `room` raises before `salle` is truthy — teardown
  skipped; an empty `uid` with a non-empty `room` raises after `salle`
  was assigned, so the teardown runs although the gate never did;
* the capacity check sits after the increments and its `ValueError`
  reaches the same teardown;
* `if not nom:` treats both `None` and `""` as denial;
* an empty received payload raises `ValueError`; a failed save answers
  `ERROR`; otherwise `GRANTED` with `len(image_data)`. -/
def handle_client (hash : Bytes → String) (env : Env) (st : ServerState)
    (hs : HandshakeInput) (stream : List (Nat × Bytes)) :
    List Response × ServerState :=
  match hs with
  | .noData => ([.error "Aucune donnée initiale reçue"], st)
  | .badJson => ([.error "Format JSON invalide"], st)
  | .fields room uid =>
    let salle := pyStrip room
    let u := pyStrip uid
    if salle = "" then ([.error "Champs requis manquants: room et uid"], st)
    else if u = "" then
      ([.error "Champs requis manquants: room et uid"], sessionTeardown st salle)
    else
      let st1 := connectionGate st salle
      if st1.active_connections > MAX_CONNECTIONS then
        ([.error "Serveur à capacité maximale"], sessionTeardown st1 salle)
      else
        let a := is_authorized env.authConn st1.autorisations st1.authCache u salle
        let st2 := { st1 with authCache := a.2.1 }
        match a.1 with
        | none =>
          ([.denied "Accès refusé - identifiants invalides"], sessionTeardown st2 salle)
        | some nom =>
          if nom = "" then
            ([.denied "Accès refusé - identifiants invalides"], sessionTeardown st2 salle)
          else
            let ack := Response.ok "Envoyer les données d'image" nom
            match receive_data_with_timeout stream 0 [] with
            | .timeoutErr =>
              ([ack, .error "Timeout de connexion"], sessionTeardown st2 salle)
            | .sizeErr n =>
              ([ack, .error (toString n)], sessionTeardown st2 salle)
            | .ok image_data =>
              if image_data = [] then
                ([ack, .error "Aucune donnée d'image reçue"], sessionTeardown st2 salle)
              else
                let s := save_capture hash env.saveConn st2.captures u salle nom
                  image_data env.timestamp
                let st3 := { st2 with captures := s.2 }
                if s.1 then
                  ([ack, .granted env.timestamp image_data.length nom],
                    sessionTeardown st3 salle)
                else
                  ([ack, .error "Échec de sauvegarde de l'image"],
                    sessionTeardown st3 salle)

/-- Shared-counter events observable between lock blocks: a session whose
handshake named a (stripped, non-empty) room passing the tracking gate, a
session's `finally` teardown, the malformed-handshake teardown that runs
with no matching gate (non-empty `room`, empty `uid`), and the
`_cleanup_server` reset. -/
inductive Ev where
  | start (sid : Nat) (salle : String)
  | finish (sid : Nat) (salle : String)
  | badFinish (salle : String)
  | cleanup
deriving DecidableEq

/-- Effect of one lock block on the shared counters. -/
def evStep (st : ServerState) : Ev → ServerState
  | .start _ salle => connectionGate st salle
  | .finish _ salle => sessionTeardown st salle
  | .badFinish salle => sessionTeardown st salle
  | .cleanup => cleanupCounters st

/-- State reached from `st` after a sequence of lock blocks. -/
def runTrace (st : ServerState) (evs : List Ev) : ServerState :=
  evs.foldl evStep st

/-- The state of the freshly initialized singleton (`__init__`,
reseau.py lines 41-62): empty occupancy dict and zero counter, with
arbitrary database contents `caps`/`table`. -/
def initState (caps : List Capture) (table : List AutRow) : ServerState :=
  ⟨[], 0, caps, table, []⟩

/-- Sum of all room-occupancy counts. -/
def sumRooms (st : ServerState) : Int :=
  (st.connected_rooms.map Prod.snd).sum

/-- Sessions open after a trace: started, not yet finished. -/
def opensAfter (evs : List Ev) : List (Nat × String) :=
  evs.foldl
    (fun acc ev =>
      match ev with
      | .start sid salle => acc ++ [(sid, salle)]
      | .finish sid _ => acc.filter fun p => !(p.1 == sid)
      | _ => acc)
    []

/-- Progress of one thread through `save_capture`, split at its two
database statements: the dedup `SELECT` (reseau.py lines 167-174, run
outside `self.lock`) and the guarded `INSERT` (lines 176-182, run inside
`with self.lock`).  Each statement is one atomic action. -/
inductive SCPhase where
  | toCheck
  | toInsert (found : Bool)
  | finished (ret : Bool)
deriving DecidableEq

/-- Arguments of one concurrent `save_capture` call. -/
structure SCArgs where
  uid : String
  salle : String
  nom : String
  image : Bytes
  timestamp : String
deriving DecidableEq

/-- One atomic action of a `save_capture` thread against the shared
`captures` table. -/
def scStep (hash : Bytes → String) (caps : List Capture) (args : SCArgs) :
    SCPhase → List Capture × SCPhase
  | .toCheck =>
    let h := hash args.image
    (caps, .toInsert (!(capturesMatching caps h args.uid args.salle).isEmpty))
  | .toInsert found =>
    if found then (caps, .finished true)
    else
      (caps ++ [⟨args.uid, args.salle, args.nom, args.image, hash args.image,
        args.image.length, args.timestamp⟩], .finished true)
  | .finished r => (caps, .finished r)

/-- Run two concurrent `save_capture` calls under an explicit schedule:
`true` steps thread 1, `false` steps thread 2. -/
def runSchedule (hash : Bytes → String) (a1 a2 : SCArgs) :
    List Bool → List Capture → SCPhase → SCPhase →
    List Capture × SCPhase × SCPhase
  | [], caps, p1, p2 => (caps, p1, p2)
  | b :: rest, caps, p1, p2 =>
    if b then
      let s := scStep hash caps a1 p1
      runSchedule hash a1 a2 rest s.1 s.2 p2
    else
      let s := scStep hash caps a2 p2
      runSchedule hash a1 a2 rest s.1 p1 s.2

/-- The stream of the C6 counterexample: 1280 full reads of 8192 zero
bytes (exactly `MAX_IMAGE_SIZE` in total, so the size guard never fires),
then a final read `[1] ++ EOF`. -/
def bigStream : List (Nat × Bytes) :=
  List.replicate 1280 (0, List.replicate 8192 0) ++ [(0, [1, 69, 79, 70])]

lemma isPre_length {pat l : Bytes} (h : isPre pat l = true) :
    pat.length ≤ l.length := by
  induction pat generalizing l with
  | nil => simp
  | cons a as ih =>
    cases l with
    | nil => simp [isPre] at h
    | cons b bs =>
      simp only [isPre, Bool.and_eq_true] at h
      simpa using ih h.2

lemma findSub_bound {pat l : Bytes} {p : Nat} (h : findSub pat l = some p) :
    p + pat.length ≤ l.length := by
  induction l generalizing p with
  | nil =>
    by_cases hp : isPre pat [] = true
    · simp [findSub, hp] at h
      cases pat with
      | nil => simp [← h]
      | cons x xs => simp [isPre] at hp
    · simp [findSub, hp] at h
  | cons a t ih =>
    by_cases hp : isPre pat (a :: t) = true
    · simp [findSub, hp] at h
      have := isPre_length hp
      omega
    · simp [findSub, hp] at h
      obtain ⟨q, hq, rfl⟩ := h
      have := ih hq
      simp only [List.length_cons]
      omega

lemma findSub_append_isSome {pat c : Bytes} (b : Bytes)
    (h : (findSub pat c).isSome = true) :
    (findSub pat (b ++ c)).isSome = true := by
  induction b with
  | nil => simpa using h
  | cons a b ih =>
    by_cases hp : isPre pat (a :: (b ++ c)) = true
    · simp [findSub, hp]
    · simpa [findSub, hp] using ih

lemma findSub_eof_append {P : Bytes} (h : findSub eofMarker P = none) :
    findSub eofMarker (P ++ eofMarker) = some P.length := by
  induction P with
  | nil => rfl
  | cons a t ih =>
    by_cases hp : isPre eofMarker (a :: t) = true
    · simp [findSub, hp] at h
    · simp [findSub, hp] at h
      have hpre : isPre eofMarker (a :: (t ++ eofMarker)) = false := by
        match t with
        | [] => simp [isPre, eofMarker]
        | [x] => simp [isPre, eofMarker]
        | x :: y :: r =>
          by_cases hx : a = 69 ∧ x = 79 ∧ y = 70
          · exfalso
            apply hp
            simp [isPre, eofMarker, hx.1, hx.2.1, hx.2.2]
          · simp only [eofMarker, isPre, List.cons_append, Bool.and_eq_true, beq_iff_eq]
            by_contra hc
            simp only [Bool.not_eq_false, Bool.and_eq_true, beq_iff_eq] at hc
            apply hx
            refine ⟨?_, ?_, ?_⟩ <;> omega
      have : findSub eofMarker (a :: (t ++ eofMarker))
          = (findSub eofMarker (t ++ eofMarker)).map (· + 1) := by
        simp [findSub, hpre]
      rw [List.cons_append, this, ih h]
      simp

lemma findSub_replicate_zero (n : Nat) :
    findSub eofMarker (List.replicate n 0) = none := by
  induction n with
  | zero => rfl
  | succ n ih =>
    have : isPre eofMarker (0 :: List.replicate n 0) = false := by
      simp [eofMarker, isPre]
    simp [List.replicate_succ, findSub, this, ih]

lemma findSub_replicate_zero_append (n : Nat) :
    findSub eofMarker (List.replicate n 0 ++ [1, 69, 79, 70]) = some (n + 1) := by
  induction n with
  | zero => rfl
  | succ n ih =>
    have : isPre eofMarker (0 :: (List.replicate n 0 ++ [1, 69, 79, 70])) = false := by
      simp [eofMarker, isPre]
    simp [List.replicate_succ, findSub, this, ih]

lemma hasEof_nil : hasEof [] = false := by decide

lemma MAX_IMAGE_SIZE_eq : MAX_IMAGE_SIZE = 10485760 := rfl

lemma eofMarker_length : eofMarker.length = 3 := rfl

/-- Concatenation of all chunk data in an event stream. -/
def streamData : List (Nat × Bytes) → Bytes
  | [] => []
  | (_, c) :: rest => c ++ streamData rest

lemma recv_take_chunk {t : Nat} {c : Bytes} {rest : List (Nat × Bytes)}
    {now : Nat} {buffer : Bytes}
    (hnow : now ≤ CONNECTION_TIMEOUT) (ht : t ≤ CONNECTION_TIMEOUT)
    (hc : c ≠ []) (he : hasEof c = false)
    (hsz : (buffer ++ c).length ≤ MAX_IMAGE_SIZE) :
    receive_data_with_timeout ((t, c) :: rest) now buffer
      = receive_data_with_timeout rest t (buffer ++ c) := by
  have h1 : ¬ now > CONNECTION_TIMEOUT := by omega
  have h2 : t ≤ now + CONNECTION_TIMEOUT ∨ (now = 0 ∧ t ≤ 2 * CONNECTION_TIMEOUT) :=
    Or.inl (by omega)
  have h3 : ¬ MAX_IMAGE_SIZE < buffer.length + c.length := by
    simp only [List.length_append] at hsz
    omega
  simp [receive_data_with_timeout, h1, h2, hc, he, h3]

lemma recv_eof_chunk {tl : Nat} {lst : Bytes} {rest : List (Nat × Bytes)}
    {now : Nat} {buffer : Bytes}
    (hnow : now ≤ CONNECTION_TIMEOUT) (ht : tl ≤ CONNECTION_TIMEOUT)
    (he : hasEof lst = true) :
    receive_data_with_timeout ((tl, lst) :: rest) now buffer
      = .ok (truncAtEof (buffer ++ lst)) := by
  have hlst : lst ≠ [] := by
    intro h
    rw [h, hasEof_nil] at he
    cases he
  have h1 : ¬ now > CONNECTION_TIMEOUT := by omega
  have h2 : tl ≤ now + CONNECTION_TIMEOUT ∨ (now = 0 ∧ tl ≤ 2 * CONNECTION_TIMEOUT) :=
    Or.inl (by omega)
  simp [receive_data_with_timeout, h1, h2, hlst, he]

lemma recv_skip_chunks (cs : List (Nat × Bytes)) :
    ∀ (rest : List (Nat × Bytes)) (now : Nat) (buffer : Bytes),
    now ≤ CONNECTION_TIMEOUT →
    (∀ x ∈ cs, x.2 ≠ [] ∧ hasEof x.2 = false ∧ x.1 ≤ CONNECTION_TIMEOUT) →
    (buffer ++ streamData cs).length ≤ MAX_IMAGE_SIZE →
    ∃ now2, now2 ≤ CONNECTION_TIMEOUT ∧
      receive_data_with_timeout (cs ++ rest) now buffer
        = receive_data_with_timeout rest now2 (buffer ++ streamData cs) := by
  induction cs with
  | nil =>
    intro rest now buffer hnow _ _
    exact ⟨now, hnow, by simp [streamData]⟩
  | cons x cs ih =>
    obtain ⟨t, c⟩ := x
    intro rest now buffer hnow hcs hsz
    obtain ⟨hc, he, ht⟩ := hcs (t, c) (by simp)
    have hsz1 : (buffer ++ c).length ≤ MAX_IMAGE_SIZE := by
      simp only [streamData, List.length_append] at hsz ⊢
      omega
    have hrec := ih rest t (buffer ++ c) ht
      (fun y hy => hcs y (List.mem_cons_of_mem _ hy))
      (by simp only [streamData, List.length_append] at hsz ⊢; omega)
    obtain ⟨now2, hn2, heq⟩ := hrec
    refine ⟨now2, hn2, ?_⟩
    rw [List.cons_append, recv_take_chunk hnow ht hc he hsz1, heq]
    simp [streamData, List.append_assoc]

lemma recv_no_eof_timeout : ∀ (events : List (Nat × Bytes)) (now : Nat) (buffer : Bytes),
    (∀ x ∈ events, x.2 ≠ [] ∧ hasEof x.2 = false) →
    (buffer ++ streamData events).length ≤ MAX_IMAGE_SIZE →
    receive_data_with_timeout events now buffer = .timeoutErr := by
  intro events
  induction events with
  | nil => intro now buffer _ _; rfl
  | cons x rest ih =>
    obtain ⟨t, c⟩ := x
    intro now buffer hs hsz
    obtain ⟨hc, he⟩ := hs (t, c) (by simp)
    by_cases h1 : now > CONNECTION_TIMEOUT
    · simp [receive_data_with_timeout, h1]
    · by_cases h2 : t ≤ now + CONNECTION_TIMEOUT ∨ (now = 0 ∧ t ≤ 2 * CONNECTION_TIMEOUT)
      · have hsz1 : ¬ MAX_IMAGE_SIZE < buffer.length + c.length := by
          simp only [streamData, List.length_append] at hsz ⊢
          omega
        have hrest := ih t (buffer ++ c)
          (fun y hy => hs y (List.mem_cons_of_mem _ hy))
          (by simp only [streamData, List.length_append] at hsz ⊢; omega)
        simp [receive_data_with_timeout, h1, h2, hc, he, hsz1, hrest]
      · simp [receive_data_with_timeout, h1, h2]

lemma recv_bounds : ∀ (events : List (Nat × Bytes)) (now : Nat) (buffer : Bytes),
    (∀ x ∈ events, x.2.length ≤ BUFFER_SIZE) →
    buffer.length ≤ MAX_IMAGE_SIZE →
    (∀ p, receive_data_with_timeout events now buffer = .ok p →
      p.length ≤ MAX_IMAGE_SIZE + (BUFFER_SIZE - eofMarker.length)) ∧
    (∀ n, receive_data_with_timeout events now buffer = .sizeErr n →
      MAX_IMAGE_SIZE < n) := by
  intro events
  induction events with
  | nil =>
    intro now buffer _ _
    constructor <;> intro z h <;> simp [receive_data_with_timeout] at h
  | cons x rest ih =>
    obtain ⟨t, c⟩ := x
    intro now buffer hch hb
    by_cases h1 : now > CONNECTION_TIMEOUT
    · constructor <;> intro z h <;> simp [receive_data_with_timeout, h1] at h
    · by_cases h2 : t ≤ now + CONNECTION_TIMEOUT ∨ (now = 0 ∧ t ≤ 2 * CONNECTION_TIMEOUT)
      · by_cases hc : c = []
        · constructor <;> intro z h <;>
            simp [receive_data_with_timeout, h1, h2, hc] at h
          rw [← h]
          simp only [MAX_IMAGE_SIZE_eq, BUFFER_SIZE, eofMarker_length] at hb ⊢
          omega
        · by_cases he : hasEof c
          · constructor <;> intro z h <;>
              simp [receive_data_with_timeout, h1, h2, hc, he] at h
            have hsome : (findSub eofMarker (buffer ++ c)).isSome = true :=
              findSub_append_isSome buffer he
            obtain ⟨q, hq⟩ := Option.isSome_iff_exists.mp hsome
            have hbd := findSub_bound hq
            have hz : z = (buffer ++ c).take q := by
              rw [← h]
              simp [truncAtEof, hq]
            have hcl : c.length ≤ BUFFER_SIZE := hch (t, c) (by simp)
            rw [hz]
            simp only [List.length_take, List.length_append, eofMarker_length,
              MAX_IMAGE_SIZE_eq, BUFFER_SIZE] at hbd hcl hb ⊢
            omega
          · by_cases hsz : MAX_IMAGE_SIZE < buffer.length + c.length
            · constructor <;> intro z h <;>
                simp [receive_data_with_timeout, h1, h2, hc, he, hsz] at h
              omega
            · have hstep : receive_data_with_timeout ((t, c) :: rest) now buffer
                  = receive_data_with_timeout rest t (buffer ++ c) := by
                simp [receive_data_with_timeout, h1, h2, hc, he, hsz]
              have hrec := ih t (buffer ++ c)
                (fun y hy => hch y (List.mem_cons_of_mem _ hy))
                (by simp only [List.length_append]; omega)
              rw [hstep]
              exact hrec
      · constructor <;> intro z h <;> simp [receive_data_with_timeout, h1, h2] at h

@[simp] lemma connectionGate_active (st : ServerState) (s : String) :
    (connectionGate st s).active_connections = st.active_connections + 1 := rfl

@[simp] lemma connectionGate_captures (st : ServerState) (s : String) :
    (connectionGate st s).captures = st.captures := rfl

@[simp] lemma connectionGate_autorisations (st : ServerState) (s : String) :
    (connectionGate st s).autorisations = st.autorisations := rfl

@[simp] lemma connectionGate_authCache (st : ServerState) (s : String) :
    (connectionGate st s).authCache = st.authCache := rfl

@[simp] lemma sessionTeardown_active (st : ServerState) (s : String) :
    (sessionTeardown st s).active_connections = max 0 (st.active_connections - 1) := rfl

@[simp] lemma sessionTeardown_captures (st : ServerState) (s : String) :
    (sessionTeardown st s).captures = st.captures := rfl

@[simp] lemma sessionTeardown_autorisations (st : ServerState) (s : String) :
    (sessionTeardown st s).autorisations = st.autorisations := rfl

@[simp] lemma sessionTeardown_authCache (st : ServerState) (s : String) :
    (sessionTeardown st s).authCache = st.authCache := rfl

lemma roomsErase_of_lookup_none {rooms : List (String × Int)} {s : String}
    (h : roomsLookup rooms s = none) : roomsErase rooms s = rooms := by
  induction rooms with
  | nil => rfl
  | cons e r ih =>
    rw [roomsLookup] at h
    by_cases hb : (e.1 == s) = true
    · simp [hb] at h
    · rw [if_neg (by simp [hb])] at h
      simp [roomsErase, List.filter_cons, hb] at ih ⊢
      exact ih h

lemma roomsLookup_append_none {rooms : List (String × Int)} {s : String}
    (l : List (String × Int)) (h : roomsLookup rooms s = none) :
    roomsLookup (rooms ++ l) s = roomsLookup l s := by
  induction rooms with
  | nil => rfl
  | cons e r ih =>
    rw [roomsLookup] at h
    by_cases hb : (e.1 == s) = true
    · simp [hb] at h
    · rw [if_neg (by simp [hb])] at h
      rw [List.cons_append, roomsLookup, if_neg (by simp [hb])]
      exact ih h

lemma roomsLookup_set_self {rooms : List (String × Int)} {s : String} {c : Int}
    (v : Int) (h : roomsLookup rooms s = some c) :
    roomsLookup (roomsSet rooms s v) s = some v := by
  induction rooms with
  | nil => simp [roomsLookup] at h
  | cons e r ih =>
    rw [roomsLookup] at h
    by_cases hb : (e.1 == s) = true
    · simp [roomsSet, hb, roomsLookup]
    · rw [if_neg (by simp [hb])] at h
      simp only [roomsSet, hb, Bool.false_eq_true, if_false]
      rw [roomsLookup, if_neg (by simp [hb])]
      exact ih h

lemma roomsSet_roomsSet {rooms : List (String × Int)} {s : String} (v w : Int) :
    roomsSet (roomsSet rooms s v) s w = roomsSet rooms s w := by
  induction rooms with
  | nil => rfl
  | cons e r ih =>
    by_cases hb : (e.1 == s) = true
    · simp [roomsSet, hb]
    · simp [roomsSet, hb, ih]

lemma roomsSet_self_eq {rooms : List (String × Int)} {s : String} {c : Int}
    (h : roomsLookup rooms s = some c) : roomsSet rooms s c = rooms := by
  induction rooms with
  | nil => rfl
  | cons e r ih =>
    rw [roomsLookup] at h
    by_cases hb : (e.1 == s) = true
    · rw [if_pos hb] at h
      simp only [Option.some_inj] at h
      have he : e.1 = s := by simpa using hb
      simp [roomsSet, hb, ← he, ← h]
    · rw [if_neg (by simp [hb])] at h
      simp [roomsSet, hb, ih h]

lemma roomsLookup_ge_one {rooms : List (String × Int)} {s : String} {c : Int}
    (hrooms : ∀ e ∈ rooms, 1 ≤ e.2) (h : roomsLookup rooms s = some c) :
    1 ≤ c := by
  induction rooms with
  | nil => simp [roomsLookup] at h
  | cons e r ih =>
    rw [roomsLookup] at h
    by_cases hb : (e.1 == s) = true
    · rw [if_pos hb] at h
      simp only [Option.some_inj] at h
      exact h ▸ hrooms e (by simp)
    · rw [if_neg (by simp [hb])] at h
      exact ih (fun x hx => hrooms x (List.mem_cons_of_mem _ hx)) h

/-- Gate then teardown restores the server state exactly, provided the
occupancy counts are at least one and the counter is non-negative. -/
lemma teardown_gate (st : ServerState) (salle : String)
    (hrooms : ∀ e ∈ st.connected_rooms, 1 ≤ e.2)
    (ha : 0 ≤ st.active_connections) :
    sessionTeardown (connectionGate st salle) salle = st := by
  have hact : max 0 (st.active_connections + 1 - 1) = st.active_connections := by
    omega
  cases hl : roomsLookup st.connected_rooms salle with
  | none =>
    have h1 : roomsLookup (st.connected_rooms ++ [(salle, 1)]) salle = some 1 := by
      rw [roomsLookup_append_none _ hl]
      simp [roomsLookup]
    have h2 : roomsErase (st.connected_rooms ++ [(salle, 1)]) salle
        = st.connected_rooms := by
      have h3 := roomsErase_of_lookup_none hl
      rw [roomsErase] at h3
      rw [roomsErase, List.filter_append, h3]
      simp
    obtain ⟨rs, act, caps, tab, cache⟩ := st
    simp_all [connectionGate, sessionTeardown]
  | some c =>
    have hc1 : 1 ≤ c := roomsLookup_ge_one hrooms hl
    have h1 : roomsLookup (roomsSet st.connected_rooms salle (c + 1)) salle
        = some (c + 1) := roomsLookup_set_self _ hl
    have h2 : ¬ (c + 1 - 1 ≤ (0:Int)) := by omega
    have h3 : roomsSet (roomsSet st.connected_rooms salle (c + 1)) salle (c + 1 - 1)
        = st.connected_rooms := by
      rw [roomsSet_roomsSet, show c + 1 - 1 = c by omega, roomsSet_self_eq hl]
    obtain ⟨rs, act, caps, tab, cache⟩ := st
    simp_all [connectionGate, sessionTeardown]

lemma cacheLookup_front (c : AuthCache) (k : String × String) (v : Option String) :
    cacheLookup ((k, v) :: c) k = some v := by
  simp [cacheLookup]

/-- After any `is_authorized` call the key sits at the cache front, bound
to the returned value. -/
lemma is_authorized_caches (connOk : Bool) (table : List AutRow)
    (cache : AuthCache) (uid salle : String) :
    ∃ c2, (is_authorized connOk table cache uid salle).2.1
        = ((uid, salle), (is_authorized connOk table cache uid salle).1) :: c2 := by
  rw [is_authorized]
  cases hl : cacheLookup cache (uid, salle) with
  | some v => exact ⟨_, rfl⟩
  | none =>
    cases connOk with
    | false => exact ⟨List.take 999 cache, by simp [cacheInsert, List.take_succ_cons]⟩
    | true => exact ⟨List.take 999 cache, by simp [cacheInsert, List.take_succ_cons]⟩

lemma is_authorized_of_front (connOk : Bool) (table : List AutRow)
    (c2 : AuthCache) (uid salle : String) (v : Option String) :
    is_authorized connOk table (((uid, salle), v) :: c2) uid salle
      = (v, cacheTouch (((uid, salle), v) :: c2) (uid, salle) v, false) := by
  rw [is_authorized, cacheLookup_front]

lemma save_capture_fst (hash : Bytes → String) (caps : List Capture)
    (uid salle nom : String) (img : Bytes) (ts : String) :
    (save_capture hash true caps uid salle nom img ts).1 = true := by
  simp only [save_capture, Bool.not_true, Bool.false_eq_true, if_false]
  split <;> rfl

lemma save_capture_fresh (hash : Bytes → String) (caps : List Capture)
    (uid salle nom : String) (img : Bytes) (ts : String)
    (h : capturesMatching caps (hash img) uid salle = []) :
    save_capture hash true caps uid salle nom img ts
      = (true, caps ++ [⟨uid, salle, nom, img, hash img, img.length, ts⟩]) := by
  simp [save_capture, h]

lemma save_capture_dup (hash : Bytes → String) (caps : List Capture)
    (uid salle nom : String) (img : Bytes) (ts : String)
    (h : capturesMatching caps (hash img) uid salle ≠ []) :
    save_capture hash true caps uid salle nom img ts = (true, caps) := by
  simp [save_capture, h]

/-- Master equation for a fully successful session: valid handshake,
capacity available, authorized with a non-empty name, received payload
non-empty, storage reachable. -/
lemma handle_client_granted_eq
    (hash : Bytes → String) (env : Env) (st : ServerState) (room uid : String)
    (stream : List (Nat × Bytes)) (P : Bytes) (nom : String)
    (hroom : pyStrip room ≠ "") (huid : pyStrip uid ≠ "")
    (hcap : st.active_connections < MAX_CONNECTIONS)
    (hauth : (is_authorized env.authConn st.autorisations st.authCache
        (pyStrip uid) (pyStrip room)).1 = some nom)
    (hnom : nom ≠ "")
    (hrecv : receive_data_with_timeout stream 0 [] = .ok P)
    (hP : P ≠ [])
    (hconn : env.saveConn = true) :
    handle_client hash env st (.fields room uid) stream =
      ([.ok "Envoyer les données d'image" nom,
        .granted env.timestamp P.length nom],
       sessionTeardown
         { connectionGate st (pyStrip room) with
             authCache := (is_authorized env.authConn st.autorisations st.authCache
               (pyStrip uid) (pyStrip room)).2.1,
             captures := (save_capture hash true st.captures (pyStrip uid)
               (pyStrip room) nom P env.timestamp).2 }
         (pyStrip room)) := by
  have hcap2 : ¬ (connectionGate st (pyStrip room)).active_connections
      > MAX_CONNECTIONS := by
    rw [connectionGate_active]
    omega
  rw [handle_client]
  simp only [if_neg hroom, if_neg huid, if_neg hcap2,
    connectionGate_autorisations, connectionGate_authCache,
    connectionGate_captures, hauth, hrecv,
    if_neg hnom, if_neg hP, hconn,
    save_capture_fst, if_true]

lemma connectionGate_rooms (st : ServerState) (s : String) :
    (connectionGate st s).connected_rooms
      = match roomsLookup st.connected_rooms s with
        | none => st.connected_rooms ++ [(s, 1)]
        | some c => roomsSet st.connected_rooms s (c + 1) := rfl

lemma sessionTeardown_rooms (st : ServerState) (s : String) :
    (sessionTeardown st s).connected_rooms
      = match roomsLookup st.connected_rooms s with
        | none => st.connected_rooms
        | some c =>
          if c - 1 ≤ 0 then roomsErase st.connected_rooms s
          else roomsSet st.connected_rooms s (c - 1) := rfl

lemma mem_roomsSet {rooms : List (String × Int)} {s : String} {v : Int}
    {e : String × Int} (he : e ∈ roomsSet rooms s v) : e ∈ rooms ∨ e = (s, v) := by
  induction rooms with
  | nil => simp [roomsSet] at he
  | cons x r ih =>
    by_cases hb : (x.1 == s) = true
    · rw [roomsSet, if_pos hb] at he
      rcases List.mem_cons.mp he with h | h
      · right; exact h
      · left; exact List.mem_cons_of_mem _ h
    · rw [roomsSet, if_neg (by simp [hb])] at he
      rcases List.mem_cons.mp he with h | h
      · left; exact h ▸ List.mem_cons_self _ _
      · rcases ih h with h2 | h2
        · left; exact List.mem_cons_of_mem _ h2
        · right; exact h2

/-- One lock block preserves non-negativity of the counter and positivity
of every tracked room count. -/
lemma evStep_preserves (st : ServerState) (ev : Ev)
    (h1 : 0 ≤ st.active_connections)
    (h2 : ∀ e ∈ st.connected_rooms, 1 ≤ e.2) :
    0 ≤ (evStep st ev).active_connections ∧
      ∀ e ∈ (evStep st ev).connected_rooms, 1 ≤ e.2 := by
  have teardown_case : ∀ s : String,
      0 ≤ (sessionTeardown st s).active_connections ∧
        ∀ e ∈ (sessionTeardown st s).connected_rooms, 1 ≤ e.2 := by
    intro s
    constructor
    · rw [sessionTeardown_active]
      exact le_max_left _ _
    · intro e he
      rw [sessionTeardown_rooms] at he
      cases hl : roomsLookup st.connected_rooms s with
      | none =>
        simp only [hl] at he
        exact h2 e he
      | some c =>
        simp only [hl] at he
        by_cases hc : c - 1 ≤ (0:Int)
        · rw [if_pos hc] at he
          exact h2 e (List.mem_of_mem_filter he)
        · rw [if_neg hc] at he
          rcases mem_roomsSet he with h | h
          · exact h2 e h
          · rw [h]; omega
  cases ev with
  | start sid s =>
    simp only [evStep]
    constructor
    · rw [connectionGate_active]; omega
    · intro e he
      rw [connectionGate_rooms] at he
      cases hl : roomsLookup st.connected_rooms s with
      | none =>
        simp only [hl] at he
        rcases List.mem_append.mp he with h | h
        · exact h2 e h
        · simp at h
          subst h
          simp
      | some c =>
        simp only [hl] at he
        have hc := roomsLookup_ge_one h2 hl
        rcases mem_roomsSet he with h | h
        · exact h2 e h
        · rw [h]; simpa using by omega
  | finish sid s => exact teardown_case s
  | badFinish s => exact teardown_case s
  | cleanup => exact ⟨le_refl 0, by simp [evStep, cleanupCounters]⟩

lemma runTrace_preserves (evs : List Ev) :
    ∀ st : ServerState, 0 ≤ st.active_connections →
    (∀ e ∈ st.connected_rooms, 1 ≤ e.2) →
    0 ≤ (runTrace st evs).active_connections ∧
      ∀ e ∈ (runTrace st evs).connected_rooms, 1 ≤ e.2 := by
  induction evs with
  | nil => intro st h1 h2; exact ⟨h1, h2⟩
  | cons ev rest ih =>
    intro st h1 h2
    have hstep := evStep_preserves st ev h1 h2
    exact ih (evStep st ev) hstep.1 hstep.2

/-- Whenever `receive_data_with_timeout` does not return a payload, the
captures table is untouched by the session. -/
lemma captures_unchanged_of_recv_err (hash : Bytes → String) (env : Env)
    (st : ServerState) (hs : HandshakeInput) (events : List (Nat × Bytes))
    (h : ∀ p, receive_data_with_timeout events 0 [] ≠ .ok p) :
    (handle_client hash env st hs events).2.captures = st.captures := by
  cases hs with
  | noData => rfl
  | badJson => rfl
  | fields room uid =>
    by_cases h1 : pyStrip room = ""
    · simp [handle_client, h1]
    · by_cases h2 : pyStrip uid = ""
      · simp [handle_client, h1, h2]
      · by_cases h3 : MAX_CONNECTIONS < st.active_connections + 1
        · simp [handle_client, h1, h2, h3]
        · cases hauth : (is_authorized env.authConn st.autorisations st.authCache
              (pyStrip uid) (pyStrip room)).1 with
          | none => simp [handle_client, h1, h2, h3, hauth]
          | some nom =>
            by_cases h4 : nom = ""
            · simp [handle_client, h1, h2, h3, hauth, h4]
            · cases hr : receive_data_with_timeout events 0 [] with
              | ok p => exact absurd hr (h p)
              | timeoutErr => simp [handle_client, h1, h2, h3, hauth, h4, hr]
              | sizeErr n => simp [handle_client, h1, h2, h3, hauth, h4, hr]

lemma take_len_add {α : Type} (l₁ l₂ : List α) (n : Nat) :
    (l₁ ++ l₂).take (l₁.length + n) = l₁ ++ l₂.take n := by
  induction l₁ with
  | nil => simp
  | cons a l ih => simp [List.take, Nat.succ_add, ih]

lemma truncAtEof_append_eof {P : Bytes} (h : findSub eofMarker P = none) :
    truncAtEof (P ++ eofMarker) = P := by
  rw [truncAtEof, findSub_eof_append h]
  exact List.take_left P eofMarker

lemma recv_single_eof {b : Bytes} (hbe : findSub eofMarker b = none) :
    receive_data_with_timeout [(0, b ++ eofMarker)] 0 [] = .ok b := by
  have heof : hasEof (b ++ eofMarker) = true := by
    rw [hasEof, findSub_eof_append hbe]
    rfl
  rw [@recv_eof_chunk 0 (b ++ eofMarker) [] 0 [] (by decide) (by decide) heof,
    List.nil_append, truncAtEof_append_eof hbe]

lemma recv_zero_chunks (k : Nat) :
    ∀ (m : Nat) (rest : List (Nat × Bytes)),
    m + 8192 * k ≤ MAX_IMAGE_SIZE →
    receive_data_with_timeout
        (List.replicate k (0, List.replicate 8192 0) ++ rest) 0 (List.replicate m 0)
      = receive_data_with_timeout rest 0 (List.replicate (m + 8192 * k) 0) := by
  induction k with
  | zero =>
    intro m rest _
    simp only [List.replicate_zero, List.nil_append, Nat.mul_zero, Nat.add_zero]
  | succ k ih =>
    intro m rest hsz
    rw [List.replicate_succ, List.cons_append]
    have he : hasEof (List.replicate 8192 0) = false := by
      rw [hasEof, findSub_replicate_zero]
      rfl
    have hne : List.replicate 8192 (0:Nat) ≠ [] := by
      simp only [ne_eq, List.replicate_eq_nil_iff]
      omega
    have hsz2 : m + 8192 * (k + 1) ≤ 10485760 := by
      rw [MAX_IMAGE_SIZE_eq] at hsz
      exact hsz
    have hsz1 : (List.replicate m 0 ++ List.replicate 8192 (0:Nat)).length
        ≤ MAX_IMAGE_SIZE := by
      simp only [List.length_append, List.length_replicate]
      rw [MAX_IMAGE_SIZE_eq]
      omega
    rw [@recv_take_chunk 0 (List.replicate 8192 0)
      (List.replicate k (0, List.replicate 8192 0) ++ rest) 0 (List.replicate m 0)
      (by decide) (by decide) hne he hsz1]
    rw [← List.replicate_add]
    rw [ih (m + 8192) rest (by rw [MAX_IMAGE_SIZE_eq]; omega)]
    have harith : m + 8192 + 8192 * k = m + 8192 * (k + 1) := by ring
    rw [harith]

lemma capturesMatching_append (a b : List Capture) (h u s : String) :
    capturesMatching (a ++ b) h u s
      = capturesMatching a h u s ++ capturesMatching b h u s := by
  simp [capturesMatching, List.filter_append]

lemma capturesMatching_single_self (u s nm : String) (img : Bytes) (hv ts : String)
    (n : Nat) :
    capturesMatching [⟨u, s, nm, img, hv, n, ts⟩] hv u s
      = [⟨u, s, nm, img, hv, n, ts⟩] := by
  simp [capturesMatching]

/-- Projection form of a fully successful single-chunk session
(`stream = [(0, b ++ EOF)]`, both storage connections available). -/
lemma session_once (hash : Bytes → String) (ts : String) (st : ServerState)
    (room uid : String) (b : Bytes) (nom : String)
    (hroom : pyStrip room ≠ "") (huid : pyStrip uid ≠ "")
    (hcap : st.active_connections < MAX_CONNECTIONS)
    (hact : 0 ≤ st.active_connections)
    (hauth : (is_authorized true st.autorisations st.authCache
        (pyStrip uid) (pyStrip room)).1 = some nom)
    (hnom : nom ≠ "") (hb : b ≠ []) (hbe : findSub eofMarker b = none) :
    (handle_client hash ⟨true, true, ts⟩ st (.fields room uid)
        [(0, b ++ eofMarker)]).1
      = [.ok "Envoyer les données d'image" nom, .granted ts b.length nom] ∧
    (handle_client hash ⟨true, true, ts⟩ st (.fields room uid)
        [(0, b ++ eofMarker)]).2.captures
      = (save_capture hash true st.captures (pyStrip uid) (pyStrip room) nom b ts).2 ∧
    (handle_client hash ⟨true, true, ts⟩ st (.fields room uid)
        [(0, b ++ eofMarker)]).2.autorisations = st.autorisations ∧
    (handle_client hash ⟨true, true, ts⟩ st (.fields room uid)
        [(0, b ++ eofMarker)]).2.authCache
      = (is_authorized true st.autorisations st.authCache
          (pyStrip uid) (pyStrip room)).2.1 ∧
    (handle_client hash ⟨true, true, ts⟩ st (.fields room uid)
        [(0, b ++ eofMarker)]).2.active_connections = st.active_connections := by
  have hrecv := recv_single_eof hbe
  have heq := handle_client_granted_eq hash ⟨true, true, ts⟩ st room uid
    [(0, b ++ eofMarker)] b nom hroom huid hcap hauth hnom hrecv hb rfl
  rw [heq]
  refine ⟨rfl, by simp, by simp, by simp, ?_⟩
  rw [sessionTeardown_active]
  have hax : ({ connectionGate st (pyStrip room) with
      authCache := (is_authorized true st.autorisations st.authCache
        (pyStrip uid) (pyStrip room)).2.1,
      captures := (save_capture hash true st.captures (pyStrip uid)
        (pyStrip room) nom b ts).2 } : ServerState).active_connections
      = st.active_connections + 1 := rfl
  rw [hax]
  omega

/-- C1: for every image `b`, identity and room, submitting `b` twice from
the same identity and room as two complete successful sessions leaves
exactly one stored capture row for that (hash, identity, room) — the row
written by the first session — and both sessions receive a GRANTED
response. -/
theorem C1_duplicate_submission_single_row
    (hash : Bytes → String) (ts1 ts2 : String) (st : ServerState)
    (room uid : String) (b : Bytes) (nom : String)
    (hroom : pyStrip room ≠ "") (huid : pyStrip uid ≠ "")
    (hcap : st.active_connections < MAX_CONNECTIONS)
    (hact : 0 ≤ st.active_connections)
    (hcache : cacheLookup st.authCache (pyStrip uid, pyStrip room) = none)
    (haut : lookupAut st.autorisations (pyStrip uid) (pyStrip room) = some nom)
    (hnom : nom ≠ "") (hb : b ≠ []) (hbe : findSub eofMarker b = none)
    (hfresh : capturesMatching st.captures (hash b) (pyStrip uid) (pyStrip room)
      = []) :
    (handle_client hash ⟨true, true, ts1⟩ st (.fields room uid)
        [(0, b ++ eofMarker)]).1
      = [.ok "Envoyer les données d'image" nom, .granted ts1 b.length nom] ∧
    (handle_client hash ⟨true, true, ts2⟩
        (handle_client hash ⟨true, true, ts1⟩ st (.fields room uid)
          [(0, b ++ eofMarker)]).2
        (.fields room uid) [(0, b ++ eofMarker)]).1
      = [.ok "Envoyer les données d'image" nom, .granted ts2 b.length nom] ∧
    capturesMatching
        (handle_client hash ⟨true, true, ts2⟩
          (handle_client hash ⟨true, true, ts1⟩ st (.fields room uid)
            [(0, b ++ eofMarker)]).2
          (.fields room uid) [(0, b ++ eofMarker)]).2.captures
        (hash b) (pyStrip uid) (pyStrip room)
      = [⟨pyStrip uid, pyStrip room, nom, b, hash b, b.length, ts1⟩] := by
  have hauth1 : (is_authorized true st.autorisations st.authCache
      (pyStrip uid) (pyStrip room)).1 = some nom := by
    rw [is_authorized, hcache]
    simp [haut]
  obtain ⟨hr1, hcap1, haut1, hcache1, hact1⟩ :=
    session_once hash ts1 st room uid b nom hroom huid hcap hact hauth1 hnom hb hbe
  obtain ⟨c2, hc2⟩ :=
    is_authorized_caches true st.autorisations st.authCache (pyStrip uid) (pyStrip room)
  rw [hauth1] at hc2
  have hauth2 : (is_authorized true
      (handle_client hash ⟨true, true, ts1⟩ st (.fields room uid)
        [(0, b ++ eofMarker)]).2.autorisations
      (handle_client hash ⟨true, true, ts1⟩ st (.fields room uid)
        [(0, b ++ eofMarker)]).2.authCache
      (pyStrip uid) (pyStrip room)).1 = some nom := by
    rw [haut1, hcache1, hc2, is_authorized_of_front]
  have hcap' : (handle_client hash ⟨true, true, ts1⟩ st (.fields room uid)
      [(0, b ++ eofMarker)]).2.active_connections < MAX_CONNECTIONS := by
    rw [hact1]; exact hcap
  have hact' : 0 ≤ (handle_client hash ⟨true, true, ts1⟩ st (.fields room uid)
      [(0, b ++ eofMarker)]).2.active_connections := by
    rw [hact1]; exact hact
  obtain ⟨hr2, hcap2, _, _, _⟩ :=
    session_once hash ts2
      (handle_client hash ⟨true, true, ts1⟩ st (.fields room uid)
        [(0, b ++ eofMarker)]).2
      room uid b nom hroom huid hcap' hact' hauth2 hnom hb hbe
  refine ⟨hr1, hr2, ?_⟩
  have hst1caps : (handle_client hash ⟨true, true, ts1⟩ st (.fields room uid)
      [(0, b ++ eofMarker)]).2.captures
      = st.captures ++ [⟨pyStrip uid, pyStrip room, nom, b, hash b, b.length, ts1⟩] := by
    rw [hcap1, save_capture_fresh hash st.captures (pyStrip uid) (pyStrip room)
      nom b ts1 hfresh]
  have hdup : capturesMatching
      (handle_client hash ⟨true, true, ts1⟩ st (.fields room uid)
        [(0, b ++ eofMarker)]).2.captures
      (hash b) (pyStrip uid) (pyStrip room) ≠ [] := by
    rw [hst1caps, capturesMatching_append, hfresh, List.nil_append,
      capturesMatching_single_self]
    simp
  rw [hcap2, save_capture_dup hash _ (pyStrip uid) (pyStrip room) nom b ts2 hdup,
    hst1caps, capturesMatching_append, hfresh, List.nil_append,
    capturesMatching_single_self]

/-- C1 witness: concrete instantiation of the two-session dedup theorem. -/
theorem C1_duplicate_submission_single_row_witness :
    (pyStrip "A" ≠ "" ∧ pyStrip "42" ≠ "" ∧
      lookupAut [("42", "A", "Alice")] (pyStrip "42") (pyStrip "A") = some "Alice") ∧
    ((handle_client (fun _ => "h") ⟨true, true, "T1"⟩ (initState [] [("42", "A", "Alice")])
        (.fields "A" "42") [(0, [9] ++ eofMarker)]).1
      = [.ok "Envoyer les données d'image" "Alice", .granted "T1" 1 "Alice"] ∧
     (handle_client (fun _ => "h") ⟨true, true, "T2"⟩
        (handle_client (fun _ => "h") ⟨true, true, "T1"⟩ (initState [] [("42", "A", "Alice")])
          (.fields "A" "42") [(0, [9] ++ eofMarker)]).2
        (.fields "A" "42") [(0, [9] ++ eofMarker)]).1
      = [.ok "Envoyer les données d'image" "Alice", .granted "T2" 1 "Alice"] ∧
     capturesMatching
        (handle_client (fun _ => "h") ⟨true, true, "T2"⟩
          (handle_client (fun _ => "h") ⟨true, true, "T1"⟩ (initState [] [("42", "A", "Alice")])
            (.fields "A" "42") [(0, [9] ++ eofMarker)]).2
          (.fields "A" "42") [(0, [9] ++ eofMarker)]).2.captures
        "h" (pyStrip "42") (pyStrip "A")
      = [⟨pyStrip "42", pyStrip "A", "Alice", [9], "h", 1, "T1"⟩]) := by
  constructor
  · exact ⟨by decide, by decide, by decide⟩
  · have h := C1_duplicate_submission_single_row (fun _ => "h") "T1" "T2"
      (initState [] [("42", "A", "Alice")]) "A" "42" [9] "Alice"
      (by decide) (by decide) (by decide) (by decide) (by decide) (by decide)
      (by decide) (by decide) (by decide) (by decide)
    exact ⟨h.1, h.2.1, h.2.2⟩

/-- C2 counterexample: a valid handshake by an authorized identity
followed by the payload `P = []` and the marker EOF ends with an ERROR
response ("Aucune donnée d'image reçue") and no stored row — not with a
GRANTED response of size 0 as the claim requires for every `P`. -/
theorem C2_empty_payload_rejected :
    (handle_client (fun _ => "h") ⟨true, true, "T"⟩
        (initState [] [("42", "A", "Alice")]) (.fields "A" "42") [(0, eofMarker)]).1
      = [.ok "Envoyer les données d'image" "Alice",
         .error "Aucune donnée d'image reçue"] ∧
    (handle_client (fun _ => "h") ⟨true, true, "T"⟩
        (initState [] [("42", "A", "Alice")]) (.fields "A" "42")
        [(0, eofMarker)]).2.captures = [] := by decide

/-- C2 amended: for a non-empty payload `P` that contains no occurrence of
the marker, delivered as marker-free non-empty chunks within the size cap
followed by a final chunk containing the marker, all within the timeout,
the session ends GRANTED with `size = len(P)` and stores a row whose bytes
are `P` and whose hash is the digest of `P`. -/
theorem C2_round_trip
    (hash : Bytes → String) (env : Env) (st : ServerState) (room uid : String)
    (cs : List (Nat × Bytes)) (tl : Nat) (lst : Bytes) (P : Bytes) (nom : String)
    (hroom : pyStrip room ≠ "") (huid : pyStrip uid ≠ "")
    (hcap : st.active_connections < MAX_CONNECTIONS)
    (hauth : (is_authorized env.authConn st.autorisations st.authCache
        (pyStrip uid) (pyStrip room)).1 = some nom)
    (hnom : nom ≠ "") (hconn : env.saveConn = true)
    (hcs : ∀ x ∈ cs, x.2 ≠ [] ∧ hasEof x.2 = false ∧ x.1 ≤ CONNECTION_TIMEOUT)
    (htl : tl ≤ CONNECTION_TIMEOUT) (hlst : hasEof lst = true)
    (hsz : (streamData cs).length ≤ MAX_IMAGE_SIZE)
    (hdata : streamData cs ++ lst = P ++ eofMarker)
    (hP : P ≠ []) (hPe : findSub eofMarker P = none)
    (hfresh : capturesMatching st.captures (hash P) (pyStrip uid) (pyStrip room)
      = []) :
    (handle_client hash env st (.fields room uid) (cs ++ [(tl, lst)])).1
      = [.ok "Envoyer les données d'image" nom,
         .granted env.timestamp P.length nom] ∧
    (handle_client hash env st (.fields room uid) (cs ++ [(tl, lst)])).2.captures
      = st.captures
        ++ [⟨pyStrip uid, pyStrip room, nom, P, hash P, P.length, env.timestamp⟩] := by
  have hrecv : receive_data_with_timeout (cs ++ [(tl, lst)]) 0 [] = .ok P := by
    obtain ⟨now2, hn2, heq⟩ := recv_skip_chunks cs [(tl, lst)] 0 []
      (by decide) hcs (by simpa using hsz)
    rw [heq, List.nil_append,
      @recv_eof_chunk tl lst [] now2 (streamData cs) hn2 htl hlst,
      hdata, truncAtEof_append_eof hPe]
  have heq := handle_client_granted_eq hash env st room uid (cs ++ [(tl, lst)])
    P nom hroom huid hcap hauth hnom hrecv hP hconn
  rw [heq]
  exact ⟨rfl, by
    simp [save_capture_fresh hash st.captures (pyStrip uid) (pyStrip room)
      nom P env.timestamp hfresh]⟩

/-- C2 witness: the round-trip theorem at a concrete two-chunk stream. -/
theorem C2_round_trip_witness :
    (pyStrip "A" ≠ "" ∧ pyStrip "42" ≠ "" ∧
      streamData [(0, [7])] ++ [8, 69, 79, 70] = [7, 8] ++ eofMarker) ∧
    ((handle_client (fun _ => "h") ⟨true, true, "T"⟩
        (initState [] [("42", "A", "Alice")]) (.fields "A" "42")
        ([(0, [7])] ++ [(1, [8, 69, 79, 70])])).1
      = [.ok "Envoyer les données d'image" "Alice", .granted "T" 2 "Alice"] ∧
     (handle_client (fun _ => "h") ⟨true, true, "T"⟩
        (initState [] [("42", "A", "Alice")]) (.fields "A" "42")
        ([(0, [7])] ++ [(1, [8, 69, 79, 70])])).2.captures
      = [] ++ [⟨pyStrip "42", pyStrip "A", "Alice", [7, 8], "h", 2, "T"⟩]) := by
  constructor
  · exact ⟨by decide, by decide, by decide⟩
  · exact C2_round_trip (fun _ => "h") ⟨true, true, "T"⟩
      (initState [] [("42", "A", "Alice")]) "A" "42" [(0, [7])] 1 [8, 69, 79, 70]
      [7, 8] "Alice" (by decide) (by decide) (by decide) (by decide) (by decide)
      rfl (by decide) (by decide) (by decide) (by decide) (by decide) (by decide)
      (by decide) (by decide)

/-- C3 counterexample: with 50 active sessions, the 51st session's
tracking block leaves the active-connection counter at 51 > 50 — the
state between reseau.py line 262 and the `finally` teardown — so the
counter does exceed the ceiling at that point. -/
theorem C3_counter_transiently_exceeds :
    MAX_CONNECTIONS <
      ServerState.active_connections
        (connectionGate (⟨[("A", 50)], 50, [], [], []⟩ : ServerState) "B") := by decide

/-- C3 amended: a session arriving when the counter is at (or above) the
ceiling is answered with the capacity ERROR before its socket closes, and
its increment is rolled back: the final server state is exactly the
initial one; the counter only transiently reads ceiling + 1 inside the
rejected session. -/
theorem C3_capacity_rejection
    (hash : Bytes → String) (env : Env) (st : ServerState) (room uid : String)
    (stream : List (Nat × Bytes))
    (hroom : pyStrip room ≠ "") (huid : pyStrip uid ≠ "")
    (hfull : MAX_CONNECTIONS ≤ st.active_connections)
    (hrooms : ∀ e ∈ st.connected_rooms, 1 ≤ e.2) :
    (handle_client hash env st (.fields room uid) stream).1
      = [.error "Serveur à capacité maximale"] ∧
    (handle_client hash env st (.fields room uid) stream).2 = st := by
  have hfull50 : (50:Int) ≤ st.active_connections := by
    rw [show MAX_CONNECTIONS = (50:Int) from rfl] at hfull
    exact hfull
  have hcap : (connectionGate st (pyStrip room)).active_connections
      > MAX_CONNECTIONS := by
    rw [connectionGate_active, show MAX_CONNECTIONS = (50:Int) from rfl]
    omega
  have ha : 0 ≤ st.active_connections := by omega
  rw [handle_client]
  simp only [if_neg hroom, if_neg huid, if_pos hcap]
  exact ⟨trivial, teardown_gate st _ hrooms ha⟩

/-- C3 witness: concrete rejection of a 51st session. -/
theorem C3_capacity_rejection_witness :
    (pyStrip "B" ≠ "" ∧ pyStrip "42" ≠ "" ∧
      MAX_CONNECTIONS ≤ ServerState.active_connections
        (⟨[("A", 50)], 50, [], [], []⟩ : ServerState)) ∧
    ((handle_client (fun _ => "h") ⟨true, true, "T"⟩
        (⟨[("A", 50)], 50, [], [], []⟩ : ServerState) (.fields "B" "42") []).1
      = [.error "Serveur à capacité maximale"] ∧
     (handle_client (fun _ => "h") ⟨true, true, "T"⟩
        (⟨[("A", 50)], 50, [], [], []⟩ : ServerState) (.fields "B" "42") []).2
      = (⟨[("A", 50)], 50, [], [], []⟩ : ServerState)) := by
  constructor
  · exact ⟨by decide, by decide, by decide⟩
  · exact C3_capacity_rejection (fun _ => "h") ⟨true, true, "T"⟩
      (⟨[("A", 50)], 50, [], [], []⟩ : ServerState) "B" "42" []
      (by decide) (by decide) (by decide) (by decide)

/-- C4 counterexample: with the dedup SELECT outside the lock, two
concurrent `save_capture` calls for the same image, identity and room can
interleave check–check–insert–insert and store two rows for the same
(hash, identity, room). -/
theorem C4_interleaved_duplicate_rows :
    capturesMatching
        (runSchedule (fun _ => "h") ⟨"42", "A", "Alice", [9], "T"⟩
          ⟨"42", "A", "Alice", [9], "T"⟩
          [true, false, true, false] [] .toCheck .toCheck).1
        "h" "42" "A"
      = [⟨"42", "A", "Alice", [9], "h", 1, "T"⟩,
         ⟨"42", "A", "Alice", [9], "h", 1, "T"⟩] := by decide

/-- C4 amended: only the INSERT is under the lock, so the check–insert
pair is not atomic and concurrent duplicates can store two rows; when the
two `save_capture` executions do not interleave (one completes before the
other starts), at most one row per (hash, identity, room) is stored. -/
theorem C4_serialized_single_row (hash : Bytes → String) (a : SCArgs) :
    capturesMatching
        (runSchedule hash a a [true, true, false, false] [] .toCheck .toCheck).1
        (hash a.image) a.uid a.salle
      = [⟨a.uid, a.salle, a.nom, a.image, hash a.image, a.image.length,
          a.timestamp⟩] := by
  simp [runSchedule, scStep, capturesMatching]

/-- C5 counterexample: the deadline is only checked at the top of each
read iteration, so a marker chunk arriving at time 31 — after the
30-unit deadline has passed with no EOF received — is still accepted and
the session ends GRANTED instead of failing with a timeout. -/
theorem C5_eof_after_deadline_granted :
    CONNECTION_TIMEOUT < 31 ∧
    (handle_client (fun _ => "h") ⟨true, true, "T"⟩
        (initState [] [("42", "A", "Alice")]) (.fields "A" "42")
        [(31, [5, 69, 79, 70])]).1
      = [.ok "Envoyer les données d'image" "Alice", .granted "T" 1 "Alice"] := by
  decide

/-- C5 amended: a client that never delivers the marker and never closes,
staying within the size cap, always ends with the timeout ERROR — whatever
its chunk timing — and the bytes received are discarded: the captures
table is unchanged. -/
theorem C5_no_eof_times_out
    (hash : Bytes → String) (env : Env) (st : ServerState) (room uid : String)
    (stream : List (Nat × Bytes)) (nom : String)
    (hroom : pyStrip room ≠ "") (huid : pyStrip uid ≠ "")
    (hcap : st.active_connections < MAX_CONNECTIONS)
    (hauth : (is_authorized env.authConn st.autorisations st.authCache
        (pyStrip uid) (pyStrip room)).1 = some nom)
    (hnom : nom ≠ "")
    (hstream : ∀ x ∈ stream, x.2 ≠ [] ∧ hasEof x.2 = false)
    (hsz : (streamData stream).length ≤ MAX_IMAGE_SIZE) :
    (handle_client hash env st (.fields room uid) stream).1
      = [.ok "Envoyer les données d'image" nom, .error "Timeout de connexion"] ∧
    (handle_client hash env st (.fields room uid) stream).2.captures
      = st.captures := by
  have hrecv : receive_data_with_timeout stream 0 [] = .timeoutErr :=
    recv_no_eof_timeout stream 0 [] hstream (by simpa using hsz)
  have hcap2 : ¬ (connectionGate st (pyStrip room)).active_connections
      > MAX_CONNECTIONS := by
    rw [connectionGate_active]
    omega
  constructor
  · rw [handle_client]
    simp only [if_neg hroom, if_neg huid, if_neg hcap2,
      connectionGate_autorisations, connectionGate_authCache, hauth,
      if_neg hnom, hrecv]
  · exact captures_unchanged_of_recv_err hash env st _ stream
      (fun p hp => by rw [hrecv] at hp; cases hp)

/-- C5 witness: the timeout theorem at a concrete trickling stream. -/
theorem C5_no_eof_times_out_witness :
    (pyStrip "A" ≠ "" ∧
      (∀ x ∈ [((10:Nat), [1]), (20, [2]), (40, [3])], x.2 ≠ ([]:Bytes) ∧
        hasEof x.2 = false)) ∧
    ((handle_client (fun _ => "h") ⟨true, true, "T"⟩
        (initState [] [("42", "A", "Alice")]) (.fields "A" "42")
        [(10, [1]), (20, [2]), (40, [3])]).1
      = [.ok "Envoyer les données d'image" "Alice",
         .error "Timeout de connexion"] ∧
     (handle_client (fun _ => "h") ⟨true, true, "T"⟩
        (initState [] [("42", "A", "Alice")]) (.fields "A" "42")
        [(10, [1]), (20, [2]), (40, [3])]).2.captures = []) := by
  constructor
  · exact ⟨by decide, by decide⟩
  · exact C5_no_eof_times_out (fun _ => "h") ⟨true, true, "T"⟩
      (initState [] [("42", "A", "Alice")]) "A" "42"
      [(10, [1]), (20, [2]), (40, [3])] "Alice"
      (by decide) (by decide) (by decide) (by decide) (by decide)
      (by decide) (by decide)

/-- C6 counterexample: 1280 marker-free reads of 8192 zero bytes put the
buffer at exactly 10 MiB (the strict size guard does not fire), and the
final read `[1] ++ EOF` is exempt from the guard because the marker check
comes first — the loop accepts a payload of 10 MiB + 1 bytes. -/
theorem C6_oversized_payload_accepted :
    receive_data_with_timeout bigStream 0 []
      = .ok (List.replicate 10485760 0 ++ [1]) ∧
    MAX_IMAGE_SIZE < (List.replicate 10485760 0 ++ [1]).length := by
  have hstep : receive_data_with_timeout bigStream 0 []
      = receive_data_with_timeout [(0, [1, 69, 79, 70])] 0
          (List.replicate (0 + 8192 * 1280) 0) := by
    show receive_data_with_timeout
        (List.replicate 1280 (0, List.replicate 8192 0) ++ [(0, [1, 69, 79, 70])])
        0 (List.replicate 0 0) = _
    rw [recv_zero_chunks 1280 0 [(0, [1, 69, 79, 70])]
      (by rw [MAX_IMAGE_SIZE_eq])]
  constructor
  · rw [hstep, show 0 + 8192 * 1280 = 10485760 by norm_num]
    rw [@recv_eof_chunk 0 [1, 69, 79, 70] [] 0 (List.replicate 10485760 0)
      (by decide) (by decide) (by decide)]
    rw [truncAtEof, findSub_replicate_zero_append]
    have htake := take_len_add (List.replicate 10485760 (0:Nat)) [1, 69, 79, 70] 1
    simp only [List.length_replicate] at htake
    simp only [htake]
    rw [show List.take 1 [1, 69, 79, 70] = [1] from rfl]
  · rw [List.length_append, List.length_replicate, MAX_IMAGE_SIZE_eq,
      show List.length [(1:Nat)] = 1 from rfl]
    omega

/-- C6 amended: the strict size guard only fires on a marker-free chunk,
so (with reads of at most BUFFER_SIZE bytes) an accepted payload is
bounded by 10 MiB + (BUFFER_SIZE - |EOF|) = 10 MiB + 8189 bytes rather
than 10 MiB; when the guard does fire the reported size strictly exceeds
10 MiB, the session fails and nothing is stored. -/
theorem C6_size_bound
    (hash : Bytes → String) (env : Env) (st : ServerState) (hs : HandshakeInput)
    (events : List (Nat × Bytes)) (p : Bytes) (n : Nat)
    (hch : ∀ x ∈ events, x.2.length ≤ BUFFER_SIZE) :
    (receive_data_with_timeout events 0 [] = .ok p →
      p.length ≤ MAX_IMAGE_SIZE + (BUFFER_SIZE - eofMarker.length)) ∧
    (receive_data_with_timeout events 0 [] = .sizeErr n →
      MAX_IMAGE_SIZE < n ∧
      (handle_client hash env st hs events).2.captures = st.captures) := by
  have hb := recv_bounds events 0 [] hch (by simp)
  constructor
  · exact hb.1 p
  · intro h
    exact ⟨hb.2 n h, captures_unchanged_of_recv_err hash env st hs events
      (fun q hq => by rw [h] at hq; cases hq)⟩

/-- C6 witness: the size-bound theorem at a one-chunk stream. -/
theorem C6_size_bound_witness :
    (∀ x ∈ [((0:Nat), [7, 69, 79, 70])], List.length x.2 ≤ BUFFER_SIZE) ∧
    ((receive_data_with_timeout [((0:Nat), [7, 69, 79, 70])] 0 [] = .ok [7] →
      List.length [7] ≤ MAX_IMAGE_SIZE + (BUFFER_SIZE - eofMarker.length)) ∧
     (receive_data_with_timeout [((0:Nat), [7, 69, 79, 70])] 0 [] = .sizeErr 5 →
      MAX_IMAGE_SIZE < 5 ∧
      (handle_client (fun _ => "h") ⟨true, true, "T"⟩
          (initState [] []) .noData [((0:Nat), [7, 69, 79, 70])]).2.captures
        = (initState [] []).captures)) := by
  constructor
  · exact by decide
  · exact C6_size_bound (fun _ => "h") ⟨true, true, "T"⟩ (initState [] [])
      .noData [((0:Nat), [7, 69, 79, 70])] [7] 5 (by decide)

/-- C7 counterexample: with ("42", "A") present in the authorization
table but no storage connection available, the session is answered DENIED
— a storage failure during authorization is reported as DENIED, not as
the ERROR the claim requires. -/
theorem C7_storage_failure_reported_denied :
    lookupAut [("42", "A", "Alice")] "42" "A" = some "Alice" ∧
    (handle_client (fun _ => "h") ⟨false, true, "T"⟩
        (initState [] [("42", "A", "Alice")]) (.fields "A" "42")
        [(0, [9, 69, 79, 70])]).1
      = [.denied "Accès refusé - identifiants invalides"] := by decide

/-- C7 amended: a session passing handshake and capacity checks is
answered DENIED exactly when `is_authorized` yields no usable name — the
pair is absent, a cached negative exists, the resolved name is empty, or
no storage connection was available; authorization storage failures are
thus reported as DENIED rather than ERROR. -/
theorem C7_denied_characterization
    (hash : Bytes → String) (env : Env) (st : ServerState) (room uid : String)
    (stream : List (Nat × Bytes))
    (hroom : pyStrip room ≠ "") (huid : pyStrip uid ≠ "")
    (hcap : st.active_connections < MAX_CONNECTIONS) :
    (handle_client hash env st (.fields room uid) stream).1
      = [.denied "Accès refusé - identifiants invalides"]
    ↔ ((is_authorized env.authConn st.autorisations st.authCache
          (pyStrip uid) (pyStrip room)).1 = none
        ∨ (is_authorized env.authConn st.autorisations st.authCache
          (pyStrip uid) (pyStrip room)).1 = some "") := by
  have hcap2 : ¬ (connectionGate st (pyStrip room)).active_connections
      > MAX_CONNECTIONS := by
    rw [connectionGate_active]
    omega
  rw [handle_client]
  simp only [if_neg hroom, if_neg huid, if_neg hcap2,
    connectionGate_autorisations, connectionGate_authCache]
  cases ha : (is_authorized env.authConn st.autorisations st.authCache
      (pyStrip uid) (pyStrip room)).1 with
  | none => simp
  | some nom =>
    by_cases hn : nom = ""
    · subst hn
      simp
    · simp only [if_neg hn]
      constructor
      · intro h
        exfalso
        cases hr : receive_data_with_timeout stream 0 [] with
        | ok p =>
          rw [hr] at h
          by_cases hp : p = []
          · simp [hp] at h
          · simp only [if_neg hp] at h
            split at h <;> simp at h
        | timeoutErr =>
          rw [hr] at h
          simp at h
        | sizeErr m =>
          rw [hr] at h
          simp at h
      · rintro (h | h)
        · cases h
        · exact absurd (Option.some_inj.mp h) hn

/-- C7 witness: the characterization at a concrete storage-failure
session whose pair is in the table. -/
theorem C7_denied_characterization_witness :
    (pyStrip "A" ≠ "" ∧ pyStrip "42" ≠ "") ∧
    ((handle_client (fun _ => "h") ⟨false, true, "T"⟩
        (initState [] [("42", "A", "Alice")]) (.fields "A" "42")
        [(0, [9, 69, 79, 70])]).1
      = [.denied "Accès refusé - identifiants invalides"]
    ↔ ((is_authorized false [("42", "A", "Alice")] [] (pyStrip "42") (pyStrip "A")).1
        = none
      ∨ (is_authorized false [("42", "A", "Alice")] [] (pyStrip "42") (pyStrip "A")).1
        = some "")) := by
  constructor
  · exact ⟨by decide, by decide⟩
  · exact C7_denied_characterization (fun _ => "h") ⟨false, true, "T"⟩
      (initState [] [("42", "A", "Alice")]) "A" "42" [(0, [9, 69, 79, 70])]
      (by decide) (by decide) (by decide)

/-- C8: evaluation at the failing input.  One authorized session opens
room "A" (gate executed, still open); a second connection sends the
handshake `{"room": "B", "uid": ""}` — its `ValueError` is raised before
the gate, but the `finally` block still runs because `salle` is truthy,
decrementing the active-connection counter it never incremented.  The
room-count sum (1) then differs from the counter (0), and the count for
"A" (1) still overstates nothing while "B" was never tracked — refuting
the claimed invariant. -/
theorem C8_unmatched_decrement_breaks_sum :
    sumRooms (runTrace (initState [] []) [.start 0 "A", .badFinish "B"]) = 1 ∧
    (runTrace (initState [] []) [.start 0 "A", .badFinish "B"]).active_connections
      = 0 ∧
    opensAfter [.start 0 "A", .badFinish "B"] = [(0, "A")] := by decide

/-- C9: `is_authorized` lookups are memoized, including `None` results
(pair not found, or no storage connection available): after a first
lookup, the key is cached with the returned value, and a second lookup —
even with a changed table or a now-working/now-broken storage connection
— returns the first result without querying storage. -/
theorem C9_lookup_memoized (connOk : Bool) (table : List AutRow)
    (cache : AuthCache) (uid salle : String) (connOk2 : Bool)
    (table2 : List AutRow) :
    cacheLookup (is_authorized connOk table cache uid salle).2.1 (uid, salle)
      = some (is_authorized connOk table cache uid salle).1 ∧
    (is_authorized connOk2 table2 (is_authorized connOk table cache uid salle).2.1
        uid salle).1
      = (is_authorized connOk table cache uid salle).1 ∧
    (is_authorized connOk2 table2 (is_authorized connOk table cache uid salle).2.1
        uid salle).2.2
      = false := by
  obtain ⟨c2, hc2⟩ := is_authorized_caches connOk table cache uid salle
  refine ⟨?_, ?_, ?_⟩
  · rw [hc2, cacheLookup_front]
  · rw [hc2, is_authorized_of_front]
  · rw [hc2, is_authorized_of_front]

/-- C10: over every sequence of connection-tracking lock blocks — session
gates, session teardowns, the malformed-handshake teardown that has no
matching gate, and `_cleanup_server` resets, in any order — the
active-connection counter never goes negative (teardown clamps it with
`max(0, ...)`) and every entry still present in the room-occupancy map
has a count of at least one (entries are deleted at zero or below). -/
theorem C10_counters_never_negative (caps : List Capture) (table : List AutRow)
    (evs : List Ev) :
    0 ≤ (runTrace (initState caps table) evs).active_connections ∧
    ((runTrace (initState caps table) evs).connected_rooms.all
        fun e => decide (1 ≤ e.2)) = true := by
  have h := runTrace_preserves evs (initState caps table)
    (le_refl 0) (by intro e he; cases he)
  refine ⟨h.1, ?_⟩
  rw [List.all_eq_true]
  intro e he
  exact decide_eq_true (h.2 e he)

end SoftEsp



